import Mathlib

/-!
Verification of the pybiz/ravel resolver, query, relationship, predicate,
executor and dumper subsystems, as a shallow embedding in Lean 4.

Each definition translates one function or data structure of the source
tree (file and symbol named in its doc comment).  Theorems at the end of
the file settle the frozen claims C1 through C10.
-/

/-! ## Predicate model (src/pybiz/predicate.py) -/

/-- Comparison op codes of a `ConditionalPredicate` (`OP_CODE` in
src/pybiz/predicate.py, lines 10-21, minus the boolean codes). -/
inductive CondOp
  | eq | neq | gt | lt | geq | leq | including | excluding
deriving DecidableEq

/-- Boolean op codes of a `BooleanPredicate` (`OP_CODE.AND` / `OP_CODE.OR`). -/
inductive BoolOp
  | andOp | orOp
deriving DecidableEq

/-- A `FieldProperty` as seen by the predicate code: the owning class name
(`prop.target.__name__`) and the field key (`prop.key`). -/
structure FieldProp where
  target : String
  key : String
deriving DecidableEq

/-- The predicate tree of src/pybiz/predicate.py: a `ConditionalPredicate`
(op, field property, literal value) or a `BooleanPredicate` (op, lhs, rhs).
The public builders (`__and__`, `__or__`, the comparison operators on field
properties) always supply both children and a real property, so `rhs` and
`prop` are total here.  Literal values are modelled as integers. -/
inductive PyPred
  | cond (op : CondOp) (prop : FieldProp) (value : Int)
  | bool (op : BoolOp) (lhs rhs : PyPred)
deriving DecidableEq

/-- `OP_CODE_2_DISPLAY_STRING` of src/pybiz/predicate.py lines 23-34,
restricted to the comparison codes.  Note the source maps `GT` to the
two-character string of greater-or-equal and `LT` to that of
less-or-equal (lines 26-27), duplicating the `GEQ`/`LEQ` entries. -/
def displayCondOp : CondOp → String
  | .eq => "=="
  | .neq => "!="
  | .gt => ">="
  | .lt => "<="
  | .geq => ">="
  | .leq => "<="
  | .including => "IN"
  | .excluding => "NOT IN"

/-- `OP_CODE_2_DISPLAY_STRING` restricted to the boolean codes. -/
def displayBoolOp : BoolOp → String
  | .andOp => "AND"
  | .orOp => "OR"

/-- String rendering of a predicate tree:
`ConditionalPredicate.__str__` (line 69-76) renders
`(Owner.key <display op> <value>)`; `BooleanPredicate._build_string`
(lines 128-143) renders each boolean node as
`(<lhs> <display op> <rhs>)`, recursing into boolean children and using
`str` on conditional children, so every sub-tree ends up parenthesized. -/
def predStr : PyPred → String
  | .cond op pr v =>
      "(" ++ pr.target ++ "." ++ pr.key ++ " " ++ displayCondOp op ++ " "
        ++ toString v ++ ")"
  | .bool op l r =>
      "(" ++ predStr l ++ " " ++ displayBoolOp op ++ " " ++ predStr r ++ ")"

/-- `targets`: for a `ConditionalPredicate` the singleton of the owning
class (line 89-90); for a `BooleanPredicate` the set union of the
children's targets (lines 108-112), here as a deduplicated list. -/
def predTargets : PyPred → List String
  | .cond _ pr _ => [pr.target]
  | .bool _ l r => (predTargets l ++ predTargets r).dedup

/-! ### Serialization (src/pybiz/predicate.py lines 36-48)

`Predicate.serialize` frames the output of the external
`codecs.encode(pickle.dumps(p), "base64")` pipeline between two `#`
characters; `Predicate.deserialize` checks the frame, strips it and feeds
the payload back through the inverse pipeline.  The two library calls are
external collaborators; they are modelled at their contract - an injective
encoding of the predicate tree into a character/number token sequence with
a total decoder - by a concrete executable codec below. -/

/-- One token of the serialized form: a number or a character. -/
abbrev PTok := Sum Nat Char

/-- Numeric code of a comparison op (payload encoding detail). -/
def condOpNat : CondOp → Nat
  | .eq => 0
  | .neq => 1
  | .gt => 2
  | .lt => 3
  | .geq => 4
  | .leq => 5
  | .including => 6
  | .excluding => 7

/-- Decoder for `condOpNat`. -/
def natToCondOp : Nat → Option CondOp
  | 0 => some .eq
  | 1 => some .neq
  | 2 => some .gt
  | 3 => some .lt
  | 4 => some .geq
  | 5 => some .leq
  | 6 => some .including
  | 7 => some .excluding
  | _ => none

/-- Numeric code of a boolean op. -/
def boolOpNat : BoolOp → Nat
  | .andOp => 0
  | .orOp => 1

/-- Decoder for `boolOpNat`. -/
def natToBoolOp : Nat → Option BoolOp
  | 0 => some .andOp
  | 1 => some .orOp
  | _ => none

/-- A string payload: its characters followed by an end marker token. -/
def strTok (s : String) : List PTok :=
  s.data.map Sum.inr ++ [Sum.inl 0]

/-- An integer payload: sign token then magnitude token. -/
def intTok (v : Int) : List PTok :=
  if v < 0 then [Sum.inl 1, Sum.inl (-v).toNat] else [Sum.inl 0, Sum.inl v.toNat]

/-- Decoder for `intTok`. -/
def decInt (sg mg : Nat) : Int :=
  if sg = 1 then -(mg : Int) else (mg : Int)

/-- Model of `pickle.dumps` on a predicate tree: a prefix encoding into
tokens.  Conditional nodes: tag 0, op code, owner name, key, value.
Boolean nodes: tag 1, op code, then both children. -/
def pickleDumps : PyPred → List PTok
  | .cond op pr v =>
      Sum.inl 0 :: Sum.inl (condOpNat op) ::
        (strTok pr.target ++ strTok pr.key ++ intTok v)
  | .bool op l r =>
      Sum.inl 1 :: Sum.inl (boolOpNat op) :: (pickleDumps l ++ pickleDumps r)

/-- Read one string payload from the token stream. -/
def parseStrTok : List PTok → Option (List Char × List PTok)
  | [] => none
  | Sum.inl _ :: rest => some ([], rest)
  | Sum.inr c :: rest =>
      match parseStrTok rest with
      | some (cs, r) => some (c :: cs, r)
      | none => none

/-- Read one predicate from the token stream, with a fuel bound on tree
depth. -/
def parsePred : Nat → List PTok → Option (PyPred × List PTok)
  | 0, _ => none
  | _ + 1, Sum.inl 0 :: Sum.inl opn :: rest =>
      match natToCondOp opn with
      | none => none
      | some op =>
          match parseStrTok rest with
          | none => none
          | some (tcs, r1) =>
              match parseStrTok r1 with
              | none => none
              | some (kcs, r2) =>
                  match r2 with
                  | Sum.inl sg :: Sum.inl mg :: r3 =>
                      some (PyPred.cond op ⟨String.mk tcs, String.mk kcs⟩ (decInt sg mg), r3)
                  | _ => none
  | fuel + 1, Sum.inl 1 :: Sum.inl bn :: rest =>
      match natToBoolOp bn with
      | none => none
      | some op =>
          match parsePred fuel rest with
          | none => none
          | some (l, r1) =>
              match parsePred fuel r1 with
              | none => none
              | some (r, r2) => some (PyPred.bool op l r, r2)
  | _, _ => none

/-- Depth of a predicate tree (fuel measure for the decoder). -/
def predDepth : PyPred → Nat
  | .cond .. => 1
  | .bool _ l r => max (predDepth l) (predDepth r) + 1

/-- Model of `pickle.loads`: decode a full token stream. -/
def pickleLoads (l : List PTok) : Option PyPred :=
  match parsePred (l.length + 1) l with
  | some (p, []) => some p
  | _ => none

/-- `Predicate.serialize` (line 37-39): the encoded payload framed by `#`
characters. -/
def predSerialize (p : PyPred) : List PTok :=
  Sum.inr (Char.ofNat 35) :: (pickleDumps p ++ [Sum.inr (Char.ofNat 35)])

/-- `Predicate.deserialize` on the string branch (lines 43-44): check the
first and last characters are `#`, strip them, decode the payload. -/
def predDeserializeStr (l : List PTok) : Option PyPred :=
  match l.head?, l.getLast? with
  | some (Sum.inr c1), some (Sum.inr c2) =>
      if c1 = Char.ofNat 35 ∧ c2 = Char.ofNat 35 then
        pickleLoads (l.drop 1).dropLast
      else none
  | _, _ => none

/-- `Predicate.deserialize` (lines 41-48): a string is checked and decoded,
a predicate object is returned as-is, anything else is a `ValueError`
(modelled as `none`). -/
def predDeserialize : Sum (List PTok) PyPred → Option PyPred
  | .inl s => predDeserializeStr s
  | .inr p => some p

/-! ## QuerySpecification (src/pybiz/biz/internal/query.py) -/

/-- `QuerySpecification` state after `__init__`.  The nested-relationship
map is always empty after `__init__` because line 42 reads
`{} if relationships else {}`, so it is a bare name list here. -/
structure QuerySpec where
  fields : List String
  views : List String
  relationships : List String
  limit : Option Int
  offset : Option Int
  orderBy : List String
deriving DecidableEq

/-- `QuerySpecification.__init__` (src/pybiz/biz/internal/query.py lines
28-56): `fields`/`views` are copied as sets, `relationships` becomes empty
either way (line 42), `limit = min(1, limit)` when a limit is supplied
(line 43), `offset = max(0, offset)` when an offset is supplied (line 44),
`order_by` is copied. -/
def querySpecInit (fields views : List String) (limit offset : Option Int)
    (orderBy : List String) : QuerySpec :=
  { fields := fields.dedup
    views := views.dedup
    relationships := []
    limit := limit.map (fun l => min 1 l)
    offset := offset.map (fun o => max 0 o)
    orderBy := orderBy }

/-! ## ravel Query builder and Relationship.pre_resolve
(src/ravel/resolver/resolvers/relationship.py) -/

/-- One entry of a ravel query's `order_by` parameter after the override
block of `Relationship.pre_resolve` ran: a genuine ordering term, or a raw
number that the resolver passed to `order_by` in place of `limit`/`offset`
(relationship.py lines 69-72). -/
inductive OrderArg
  | term (t : String) (desc : Bool)
  | num (n : Nat)
deriving DecidableEq

/-- Modelled from the spec: the ravel `Query` builder object (the `Query`
class itself is not under src/, only its callers are); per spec section
4.4 it carries a selection, predicates, ordering and pagination
parameters. -/
structure RQuery where
  select : List String
  whereCl : List String
  orderBy : List OrderArg
  limit : Option Nat
  offset : Option Nat
deriving DecidableEq

/-- Modelled from the spec: `Query.select` adds resolver names. -/
def RQuery.selectAdd (q : RQuery) (names : List String) : RQuery :=
  { q with select := q.select ++ names }

/-- Modelled from the spec: `Query.where` appends predicates (conjoined). -/
def RQuery.whereAdd (q : RQuery) (ps : List String) : RQuery :=
  { q with whereCl := q.whereCl ++ ps }

/-- Modelled from the spec: `Query.order_by` sets the ordering parameter
with whatever arguments it is given. -/
def RQuery.orderByAdd (q : RQuery) (args : List OrderArg) : RQuery :=
  { q with orderBy := q.orderBy ++ args }

/-- Modelled from the spec: `Query.limit` sets the limit parameter. -/
def RQuery.limitSet (q : RQuery) (n : Nat) : RQuery :=
  { q with limit := some n }

/-- Modelled from the spec: `Query.offset` sets the offset parameter. -/
def RQuery.offsetSet (q : RQuery) (n : Nat) : RQuery :=
  { q with offset := some n }

/-- The caller's request parameters (`request.parameters`) as read by
`Relationship.pre_resolve`. -/
structure ReqParams where
  select : List String
  whereCl : List String
  orderBy : List OrderArg
  limit : Option Nat
  offset : Option Nat
deriving DecidableEq

/-- The final-hop override block of `Relationship.pre_resolve`
(src/ravel/resolver/resolvers/relationship.py lines 62-72, identical in
`pre_resolve_batch` lines 93-103): `select`, `where` and `order_by` go to
their own query methods, but the truthy `limit` and `offset` values are
passed to `query.order_by` (lines 69-72).  Python truthiness: a parameter
is applied only when non-empty respectively non-zero. -/
def preResolveApplyOverrides (q : RQuery) (ps : ReqParams) : RQuery :=
  let q1 := if ps.select.isEmpty then q else q.selectAdd ps.select
  let q2 := if ps.whereCl.isEmpty then q1 else q1.whereAdd ps.whereCl
  let q3 := if ps.orderBy.isEmpty then q2 else q2.orderByAdd ps.orderBy
  let q4 := match ps.limit with
    | some n => if n ≠ 0 then q3.orderByAdd [OrderArg.num n] else q3
    | none => q3
  match ps.offset with
    | some n => if n ≠ 0 then q4.orderByAdd [OrderArg.num n] else q4
    | none => q4

/-- `Relationship.pre_resolve` executes the final-hop query with
`first = not self.many` (relationship.py line 74). -/
def preResolveFirstFlag (many : Bool) : Bool := !many

/-- An empty ravel query, as produced by `Type.select()` before any
override is applied. -/
def emptyRQuery : RQuery := ⟨[], [], [], none, none⟩

/-- A sample caller request carrying limit and offset overrides. -/
def sampleReqParams : ReqParams := ⟨[], [], [], some 5, some 2⟩

/-! ## Relationship construction and binding
(src/ravel/resolver/resolvers/relationship.py lines 11-42, 156-175) -/

/-- The right-hand side of a declared join pair: the owning resource type
of the right resolver and whether the pair was declared through a
`BatchResolverProperty` (`Join.__init__` lines 163-171). -/
structure RightRef where
  owner : String
  isBatch : Bool
deriving DecidableEq

/-- A built `Join` (`Join.__init__`, lines 156-175): left field name, the
right side's owner type, and `right_many` taken from the batch-ness of the
right property. -/
structure BuiltJoin where
  leftName : String
  rightOwner : String
  rightMany : Bool
deriving DecidableEq

/-- `Join(l, r)` construction (lines 156-175). -/
def mkJoin (l : String) (r : RightRef) : BuiltJoin :=
  ⟨l, r.owner, r.isBatch⟩

/-- What a join callback returns (lines 36-38): either a single pair
`(left, right)` or a list of pairs. -/
inductive JoinDecl
  | single (l : String) (r : RightRef)
  | pairList (ps : List (String × RightRef))

/-- The `join` argument of `Relationship.__init__` (lines 11-17): a
callable, or a concrete join pair list. -/
inductive JoinArg
  | callback (cb : Unit → JoinDecl)
  | concrete (js : List BuiltJoin)

/-- Relationship state relevant to binding. -/
structure RelState where
  joinCallback : Option (Unit → JoinDecl)
  joins : List BuiltJoin
  target : Option String
  many : Bool

/-- `Relationship.__init__` (lines 11-19): a callable `join` is stored as
the callback with `joins = []`; otherwise `join_callback` is `None` and
the concrete list is stored as-is. -/
def relationshipInit (arg : JoinArg) : RelState :=
  match arg with
  | .callback cb =>
      { joinCallback := some cb, joins := [], target := none, many := false }
  | .concrete js =>
      { joinCallback := none, joins := js, target := none, many := false }

/-- `Relationship.on_bind` (lines 32-42): the stored callback is invoked
unconditionally at line 36; when it is `None` the call is a `TypeError`
(modelled as `Except.error`); a single pair is wrapped in a list (lines
37-38); an empty pair list raises at the `pairs[0]` subscript; otherwise
the joins are built in order and `target`/`many` are taken from the last
join's right side (lines 40-42). -/
def relationshipOnBind (st : RelState) : Except String RelState :=
  match st.joinCallback with
  | none => .error "TypeError: NoneType object is not callable"
  | some cb =>
    match cb () with
    | .single l r =>
        .ok { st with joins := [mkJoin l r]
                      target := some r.owner
                      many := r.isBatch }
    | .pairList [] => .error "IndexError: list index out of range"
    | .pairList (p :: ps) =>
        let lastPair := (p :: ps).getLastD p
        .ok { st with joins := (p :: ps).map (fun q => mkJoin q.1 q.2)
                      target := some lastPair.2.owner
                      many := lastPair.2.isBatch }

/-! ## ravel Executor (src/ravel/query/executor.py) -/

/-- Modelled from the spec: the identity field name (`ravel.constants.ID`;
the constants module is not under src/; spec section 6 requires an
identity field name per type). -/
def fieldID : String := "_id"

/-- Modelled from the spec: the revision field name (`ravel.constants.REV`). -/
def fieldREV : String := "_rev"

/-- A selected request as the executor sees it: the resolver's name and the
resolver's priority integer. -/
structure ExecRequest where
  name : String
  priority : Nat
deriving DecidableEq

/-- `Executor._analyze_query` (executor.py lines 25-37): partition the
selected requests into schema-field names to fetch - always seeded with
the identity and revision fields - and non-field requests to execute.
The source accumulates both in Python sets; the model keeps them as lists
in iteration order (membership is what the claims consume). -/
def analyzeQuery (schemaFields : List String) (selected : List ExecRequest) :
    List String × List ExecRequest :=
  ([fieldID, fieldREV] ++
      (selected.filter (fun r => decide (r.name ∈ schemaFields))).map (fun r => r.name),
   selected.filter (fun r => decide (r.name ∉ schemaFields)))

/-- A fetched record, and equally a resource's state: field name/value
pairs. -/
abbrev RecordS := List (String × Nat)

/-- The keys present in a record / resource state. -/
def recordKeys (r : RecordS) : List String := r.map (fun kv => kv.1)

/-- `Executor._execute_requests` (executor.py lines 54-59): for each
request, in the order the request collection yields them, run the resolver
on each resource and write the value into the resource's state under the
resolver's name.  The collection iterated is the Python `set` built by
`_analyze_query`; the source never sorts it by priority. -/
def executeRequests (resolve : String → RecordS → Nat)
    (requests : List ExecRequest) (resources : List RecordS) : List RecordS :=
  requests.foldl
    (fun rs req => rs.map (fun r => r ++ [(req.name, resolve req.name r)]))
    resources

/-- The order in which `_execute_requests` runs the requested resolvers:
exactly the iteration order of the request collection (outer loop, line
55). -/
def executionOrder (requests : List ExecRequest) : List String :=
  requests.map (fun r => r.name)

/-- Modelled from the spec: the execution order the ordering contract
requires (spec sections 4.2 and 4.5) - ascending `priority()`, ties kept
in declaration order (a stable insertion sort). -/
def insertByPriority (x : ExecRequest) : List ExecRequest → List ExecRequest
  | [] => [x]
  | y :: ys =>
      if y.priority < x.priority then y :: insertByPriority x ys else x :: y :: ys

/-- Modelled from the spec: stable ascending-priority sort of the requests
(earlier elements stay before later elements of equal priority). -/
def specPriorityOrder (requests : List ExecRequest) : List String :=
  (requests.foldr insertByPriority []).map (fun r => r.name)

/-- The force-include tail of `QuerySpecification.build`
(src/pybiz/biz/internal/query.py lines 133-137): whatever the caller
selected, the schema's required field sources and the identity field
source are added to `fields`. -/
def buildForceFields (specFields required : List String) (idSource : String) :
    List String :=
  specFields ++ required ++ [idSource]

/-! ## Batch relationship resolution
(src/ravel/resolver/resolvers/relationship.py lines 79-141, 177-189) -/

/-- A resource as the join algorithm sees it: an identity and field/value
pairs. -/
structure JRes where
  rid : Nat
  attrs : List (String × Nat)
deriving DecidableEq

/-- Field access (`getattr(res, field_name)` / `res[field_name]`). -/
def JRes.get (r : JRes) (f : String) : Nat :=
  ((r.attrs.find? (fun kv => kv.1 = f)).map (fun kv => kv.2)).getD 0

/-- One join hop together with the Store table of its right-side type (the
rows `query.execute()` draws from). -/
structure JHop where
  leftField : String
  rightField : String
  store : List JRes

/-- `Join.build` on a batch source (relationship.py lines 183-187) followed
by `query.execute()`: the right-side rows whose right field value is
included in the set of the sources' left field values, conjoined with the
extra predicate that `pre_resolve_batch` adds from the request at the
final hop (`query.where`, line 97; `fun _ => true` elsewhere). -/
def hopQueried (j : JHop) (extra : JRes → Bool) (source : List JRes) : List JRes :=
  j.store.filter (fun t =>
    decide (t.get j.rightField ∈ source.map (fun s => s.get j.leftField)) && extra t)

/-- The per-hop mapping of relationship.py lines 105-115:
`value_2_queried_resource` groups the queried rows by right field value,
and `mapping[source_res]` is the group at the source's left field value -
i.e. the queried rows whose right field equals the source's left field
value (the Python sets are modelled as lists in row order). -/
def hopMapping (j : JHop) (queried : List JRes) : JRes → List JRes :=
  fun s => queried.filter (fun t => decide (t.get j.rightField = s.get j.leftField))

/-- The hop loop of `Relationship.pre_resolve_batch` (lines 88-118): walk
the join chain; each iteration issues exactly one Store query
(`query.execute()`, line 106); the queried rows become the next source
set.  Returns the accumulated per-hop mappings and the number of Store
query calls issued. -/
def runBatchHops (extra : JRes → Bool) :
    List JHop → List JRes → List (JRes → List JRes) × Nat
  | [], _ => ([], 0)
  | [j], source =>
      let queried := hopQueried j extra source
      ([hopMapping j queried], 1)
  | j :: j2 :: rest, source =>
      let queried := hopQueried j (fun _ => true) source
      let next := runBatchHops extra (j2 :: rest) queried
      (hopMapping j queried :: next.1, next.2 + 1)

/-- `extract` (relationship.py lines 120-129): flatten the per-hop mappings
for one key, hop by hop; at the last hop the group itself, otherwise the
concatenation over the group's members. -/
def extractChain : JRes → List (JRes → List JRes) → List JRes
  | _, [] => []
  | key, [m] => m key
  | key, m :: m2 :: ms =>
      (m key).foldl (fun acc r => acc ++ extractChain r (m2 :: ms)) []

/-- The value `pre_resolve_batch` assigns to one source resource (lines
131-141): the flattened chain as a Batch when `many`, else its first
element or nothing. -/
inductive JEntity
  | batch (rs : List JRes)
  | one (r : Option JRes)
deriving DecidableEq

/-- Per-source result of `Relationship.pre_resolve_batch`. -/
def preResolveBatchValue (many : Bool) (joins : List JHop) (extra : JRes → Bool)
    (batch : List JRes) (res : JRes) : JEntity :=
  let ms := (runBatchHops extra joins batch).1
  let ex := extractChain res ms
  if many then .batch ex else .one ex.head?

/-- Number of Store query calls issued by one `pre_resolve_batch` run. -/
def batchStoreCalls (joins : List JHop) (extra : JRes → Bool)
    (batch : List JRes) : Nat :=
  (runBatchHops extra joins batch).2

/-! ## Side-loaded dumper (src/pybiz/biz/dumper.py lines 86-131) -/

/-- The links accumulator: identity to dumped record (relationship keys
mapped to child identities). -/
abbrev DLinks := List (Nat × List (String × Nat))

/-- dumper.py lines 116-121: insert the parent record under its identity,
or merge into the existing entry for that identity (`links[pid].update`). -/
def dlinksAdd (links : DLinks) (pid : Nat) (record : List (String × Nat)) :
    DLinks :=
  if (links.find? (fun e => e.1 = pid)).isSome then
    links.map (fun e => if e.1 = pid then (e.1, e.2 ++ record) else e)
  else links ++ [(pid, record)]

/-- `SideLoadedDumper._dump_recursive` (dumper.py lines 99-123) over an
object graph `g` mapping each identity to its relationship state entries
(relationship name, child identity), with an explicit recursion-depth fuel
standing in for the Python call stack: each relationship entry records the
child identity and recurses into the child (`_recurse_on_entity`) BEFORE
the parent is inserted into `links`, and no visited check exists anywhere.
`none` means the fuel bound was hit - the source call, which has no such
bound, does not return. -/
def dumpRecursive (g : Nat → List (String × Nat)) :
    Nat → Nat → DLinks → Option DLinks
  | 0, _, _ => none
  | fuel + 1, pid, links =>
      match (g pid).foldlM (fun acc e => dumpRecursive g fuel e.2 acc) links with
      | none => none
      | some links1 => some (dlinksAdd links1 pid (g pid))

/-- A two-node cyclic object graph: resource 0's relationship `b` points at
resource 1 and resource 1's relationship `a` points back at resource 0. -/
def cycleGraph : Nat → List (String × Nat) :=
  fun n => if n = 0 then [("b", 1)] else if n = 1 then [("a", 0)] else []

/-! ## Concrete instances used by witnesses -/

/-- Sample schema field names. -/
def wSchema : List String := ["name"]

/-- Sample selected requests: one schema field, one relationship. -/
def wSelected : List ExecRequest := [⟨"name", 0⟩, ⟨"friends", 10⟩]

/-- Sample Store response containing the analyzed field set. -/
def wStore : List RecordS := [[("_id", 1), ("_rev", 2), ("name", 3)]]

/-- Sample resolver valuation. -/
def wResolve : String → RecordS → Nat := fun _ _ => 0

/-- Sample one-hop join with two right-side rows. -/
def wJHop : JHop :=
  ⟨"owner_id", "owner_id",
   [⟨21, [("owner_id", 7)]⟩, ⟨22, [("owner_id", 8)]⟩, ⟨23, [("owner_id", 7)]⟩]⟩

/-- Sample source resource for the one-hop join. -/
def wSrc : JRes := ⟨7, [("owner_id", 7)]⟩

/-! ## THEOREMS -/

theorem parseStrTok_append (cs : List Char) (rest : List PTok) :
    parseStrTok (cs.map Sum.inr ++ Sum.inl 0 :: rest) = some (cs, rest) := by
  induction cs with
  | nil => simp [parseStrTok]
  | cons c cs ih => simp [parseStrTok, ih]

theorem parseStrTok_strTok (s : String) (rest : List PTok) :
    parseStrTok (strTok s ++ rest) = some (s.data, rest) := by
  have h := parseStrTok_append s.data rest
  simpa [strTok] using h

theorem natToCondOp_condOpNat (op : CondOp) :
    natToCondOp (condOpNat op) = some op := by
  cases op <;> rfl

theorem natToBoolOp_boolOpNat (op : BoolOp) :
    natToBoolOp (boolOpNat op) = some op := by
  cases op <;> rfl

theorem intTok_decInt (v : Int) (rest : List PTok) :
    ∃ sg mg, intTok v ++ rest = Sum.inl sg :: Sum.inl mg :: rest ∧ decInt sg mg = v := by
  by_cases h : v < 0
  · refine ⟨1, (-v).toNat, by simp [intTok, h], ?_⟩
    have hn : (((-v).toNat : Int)) = -v := Int.toNat_of_nonneg (by omega)
    simp [decInt, hn]
  · refine ⟨0, v.toNat, by simp [intTok, h], ?_⟩
    have hn : ((v.toNat : Int)) = v := Int.toNat_of_nonneg (by omega)
    simp [decInt, hn]

theorem parsePred_pickleDumps (p : PyPred) :
    ∀ fuel rest, predDepth p ≤ fuel →
      parsePred fuel (pickleDumps p ++ rest) = some (p, rest) := by
  induction p with
  | cond op pr v =>
      intro fuel rest h
      match fuel, h with
      | fuel + 1, _ =>
        obtain ⟨sg, mg, henc, hdec⟩ := intTok_decInt v rest
        simp only [pickleDumps, List.cons_append, List.append_eq, parsePred,
          natToCondOp_condOpNat, List.append_assoc, parseStrTok_strTok, henc, hdec]
  | bool op l r ihl ihr =>
      intro fuel rest h
      match fuel, h with
      | fuel + 1, h =>
        have hl : predDepth l ≤ fuel := by
          simp only [predDepth] at h; omega
        have hr : predDepth r ≤ fuel := by
          simp only [predDepth] at h; omega
        simp only [pickleDumps, List.cons_append, List.append_eq, parsePred,
          natToBoolOp_boolOpNat, List.append_assoc, ihl fuel _ hl, ihr fuel rest hr]

theorem predDepth_le_len (p : PyPred) : predDepth p ≤ (pickleDumps p).length := by
  induction p with
  | cond op pr v => simp [predDepth, pickleDumps]
  | bool op l r ihl ihr =>
      simp only [predDepth, pickleDumps, List.length_cons, List.length_append]
      omega

theorem pickleLoads_pickleDumps (p : PyPred) :
    pickleLoads (pickleDumps p) = some p := by
  have h := parsePred_pickleDumps p ((pickleDumps p).length + 1) []
    (le_trans (predDepth_le_len p) (Nat.le_succ _))
  simp only [pickleLoads, List.append_nil] at h ⊢
  rw [h]

theorem predDeserialize_predSerialize (p : PyPred) :
    predDeserialize (Sum.inl (predSerialize p)) = some p := by
  have hform : predSerialize p =
      (Sum.inr (Char.ofNat 35) :: pickleDumps p) ++ [Sum.inr (Char.ofNat 35)] := by
    simp [predSerialize]
  have hhead : (predSerialize p).head? = some (Sum.inr (Char.ofNat 35)) := by
    simp [predSerialize]
  have hlast : (predSerialize p).getLast? = some (Sum.inr (Char.ofNat 35)) := by
    rw [hform, List.getLast?_concat]
  have hdrop : (predSerialize p).tail.dropLast = pickleDumps p := by
    simp [predSerialize, List.dropLast_concat]
  simp only [predDeserialize, predDeserializeStr, hhead, hlast]
  simp [hdrop, pickleLoads_pickleDumps p]

/-- C8: for every predicate tree `p`, deserializing the string produced by
serializing `p` yields a predicate with the same targets set and the same
string rendering as `p` (round-trip fidelity of the opaque serialization
contract of `Predicate.serialize`/`Predicate.deserialize`). -/
theorem predicate_serialize_roundtrip (p : PyPred) :
    ∃ q, predDeserialize (Sum.inl (predSerialize p)) = some q ∧
      (∀ t, t ∈ predTargets q ↔ t ∈ predTargets p) ∧
      predStr q = predStr p :=
  ⟨p, predDeserialize_predSerialize p, fun _ => Iff.rfl, rfl⟩

/-- C2: the source's display table does not reproduce the original operator
symbols: `OP_CODE_2_DISPLAY_STRING` maps the greater operator `gt` to the
same two-character string as `geq` and the less operator `lt` to the same
string as `leq` (src/pybiz/predicate.py lines 26-27), so rendering a
greater-than predicate produces a greater-or-equal symbol, not the claimed
one-character symbol.  (Parenthesization of boolean sub-trees does hold,
shown on a sample tree.) -/
theorem predicate_display_gt_lt_bug :
    predStr (PyPred.cond CondOp.gt ⟨"User", "age"⟩ 1) = "(User.age >= 1)" ∧
    displayCondOp CondOp.gt = displayCondOp CondOp.geq ∧
    displayCondOp CondOp.lt = displayCondOp CondOp.leq ∧
    displayCondOp CondOp.gt ≠ ">" ∧
    displayCondOp CondOp.lt ≠ "<" ∧
    predStr (PyPred.bool BoolOp.andOp
        (PyPred.cond CondOp.eq ⟨"User", "age"⟩ 1)
        (PyPred.cond CondOp.neq ⟨"User", "rank"⟩ 2))
      = "((User.age == 1) AND (User.rank != 2))" := by
  refine ⟨by decide, rfl, rfl, by decide, by decide, by decide⟩

/-- C3: the constructed-QuerySpecification invariant `limit >= 0` fails for
negative caller limits: `__init__` stores `min(1, limit)` (query.py line
43), which passes a negative limit through unchanged (and clamps every
limit above 1 down to 1); the offset clamp `max(0, offset)` does hold. -/
theorem queryspec_negative_limit_bug :
    (querySpecInit [] [] (some (-3)) (some (-2)) []).limit = some (-3) ∧
    ¬ (0 ≤ (-3 : Int)) ∧
    (querySpecInit [] [] (some 5) (some 2) []).limit = some 1 ∧
    (querySpecInit [] [] (some (-3)) (some (-2)) []).offset = some 0 ∧
    (querySpecInit [] [] (some 5) (some 2) []).offset = some 2 := by
  refine ⟨by decide, by decide, by decide, by decide, by decide⟩

/-- C4: the final-hop query of a scalar relationship resolution does not
apply the caller's limit and offset overrides to their own query
parameters: `Relationship.pre_resolve` passes both values to
`query.order_by` (relationship.py lines 69-72), so with request limit 5
and offset 2 the built query still has no limit and no offset and its
order_by list holds the two raw numbers instead; the single-result flag
`first = not many` does hold as claimed. -/
theorem relationship_pre_resolve_limit_offset_bug :
    (preResolveApplyOverrides emptyRQuery sampleReqParams).limit = none ∧
    (preResolveApplyOverrides emptyRQuery sampleReqParams).offset = none ∧
    (preResolveApplyOverrides emptyRQuery sampleReqParams).orderBy
      = [OrderArg.num 5, OrderArg.num 2] ∧
    sampleReqParams.limit = some 5 ∧
    sampleReqParams.offset = some 2 ∧
    preResolveFirstFlag false = true ∧
    preResolveFirstFlag true = false := by
  refine ⟨by decide, by decide, by decide, rfl, rfl, rfl, rfl⟩

/-- C10: binding a relationship constructed with a concrete join pair list
always fails, because `on_bind` unconditionally invokes the stored join
callback, which is `None` in that case (relationship.py lines 16-17, 36);
a relationship declared with a join callback completes `on_bind`, with
`target` and `many` derived from the last join's right side (lines
40-42). -/
theorem relationship_bind_requires_callback :
    (∀ js, relationshipOnBind (relationshipInit (JoinArg.concrete js)) =
      Except.error "TypeError: NoneType object is not callable") ∧
    (∀ l r, ∃ st,
      relationshipOnBind
          (relationshipInit (JoinArg.callback (fun _ => JoinDecl.single l r)))
        = Except.ok st ∧
      st.target = some r.owner ∧ st.many = r.isBatch) ∧
    (∀ p ps, ∃ st,
      relationshipOnBind
          (relationshipInit (JoinArg.callback (fun _ => JoinDecl.pairList (p :: ps))))
        = Except.ok st ∧
      st.target = some ((p :: ps).getLastD p).2.owner ∧
      st.many = ((p :: ps).getLastD p).2.isBatch) := by
  refine ⟨fun js => rfl, fun l r => ⟨_, rfl, rfl, rfl⟩, fun p ps => ⟨_, rfl, rfl, rfl⟩⟩

/-- C5 (evaluation at the failing input): `Executor._execute_requests`
executes the analyzed requests in the iteration order of the request set
with no priority sort anywhere, so a priority-10 relationship iterated
first runs before a priority-5 attribute, contradicting the
ascending-priority ordering contract (modelled here by a stable
ascending-priority sort). -/
theorem executor_priority_order_bug :
    executionOrder [⟨"rel", 10⟩, ⟨"attr", 5⟩] = ["rel", "attr"] ∧
    specPriorityOrder [⟨"rel", 10⟩, ⟨"attr", 5⟩] = ["attr", "rel"] ∧
    executionOrder [⟨"rel", 10⟩, ⟨"attr", 5⟩]
      ≠ specPriorityOrder [⟨"rel", 10⟩, ⟨"attr", 5⟩] ∧
    analyzeQuery [] [⟨"rel", 10⟩, ⟨"attr", 5⟩]
      = ([fieldID, fieldREV], [⟨"rel", 10⟩, ⟨"attr", 5⟩]) := by
  refine ⟨rfl, by decide, by decide, by decide⟩

theorem executeRequests_keys (resolve : String → RecordS → Nat) :
    ∀ (requests : List ExecRequest) (rs : List RecordS) (rec : RecordS),
      rec ∈ executeRequests resolve requests rs →
      ∃ rec0, rec0 ∈ rs ∧
        recordKeys rec = recordKeys rec0 ++ executionOrder requests := by
  intro requests
  induction requests with
  | nil =>
      intro rs rec h
      exact ⟨rec, h, by simp [executionOrder, executeRequests]⟩
  | cons req reqs ih =>
      intro rs rec h
      have h2 : rec ∈ executeRequests resolve reqs
          (rs.map (fun r => r ++ [(req.name, resolve req.name r)])) := h
      obtain ⟨rec1, h1mem, h1keys⟩ := ih _ rec h2
      obtain ⟨rec0, h0mem, h0eq⟩ := List.mem_map.mp h1mem
      refine ⟨rec0, h0mem, ?_⟩
      rw [h1keys, ← h0eq]
      simp [recordKeys, executionOrder]

/-- C6: every resource produced by one executor pass has a state containing
at least the identity and revision fields plus every explicitly selected
resolver name (schema fields arrive from the Store fetch, which
`_analyze_query` always seeds with identity and revision; all other
selected resolvers are written by `_execute_requests`), provided the Store
honours its contract of returning every requested field; and
`QuerySpecification.build` force-includes the identity field source and
all schema-required field sources into `fields` regardless of the caller's
selection. -/
theorem query_selection_completeness
    (schemaFields : List String) (selected : List ExecRequest)
    (storeRecs : List RecordS) (resolve : String → RecordS → Nat)
    (hstore : ∀ r ∈ storeRecs, ∀ f ∈ (analyzeQuery schemaFields selected).1,
      f ∈ recordKeys r) :
    (∀ rec ∈ executeRequests resolve (analyzeQuery schemaFields selected).2 storeRecs,
      fieldID ∈ recordKeys rec ∧ fieldREV ∈ recordKeys rec ∧
        ∀ req ∈ selected, req.name ∈ recordKeys rec) ∧
    (∀ specFields required idSource,
      idSource ∈ buildForceFields specFields required idSource ∧
      ∀ f ∈ required, f ∈ buildForceFields specFields required idSource) := by
  constructor
  · intro rec hrec
    obtain ⟨rec0, h0mem, h0keys⟩ := executeRequests_keys resolve _ storeRecs rec hrec
    have hID : fieldID ∈ recordKeys rec0 :=
      hstore rec0 h0mem fieldID (by simp [analyzeQuery])
    have hREV : fieldREV ∈ recordKeys rec0 :=
      hstore rec0 h0mem fieldREV (by simp [analyzeQuery])
    refine ⟨by rw [h0keys]; exact List.mem_append_left _ hID,
            by rw [h0keys]; exact List.mem_append_left _ hREV, ?_⟩
    intro req hreq
    by_cases hin : req.name ∈ schemaFields
    · have hmem : req.name ∈ (analyzeQuery schemaFields selected).1 := by
        simp only [analyzeQuery, List.mem_append, List.mem_map, List.mem_filter,
          decide_eq_true_eq]
        exact Or.inr ⟨req, ⟨hreq, hin⟩, rfl⟩
      have := hstore rec0 h0mem req.name hmem
      rw [h0keys]
      exact List.mem_append_left _ this
    · have hmem : req.name ∈ executionOrder (analyzeQuery schemaFields selected).2 := by
        simp only [analyzeQuery, executionOrder, List.mem_map, List.mem_filter,
          decide_eq_true_eq]
        exact ⟨req, ⟨hreq, hin⟩, rfl⟩
      rw [h0keys]
      exact List.mem_append_right _ hmem
  · intro specFields required idSource
    refine ⟨by simp [buildForceFields], fun f hf => by simp [buildForceFields, hf]⟩

theorem query_selection_completeness_witness :
    (∀ r ∈ wStore, ∀ f ∈ (analyzeQuery wSchema wSelected).1, f ∈ recordKeys r) ∧
    (∀ rec ∈ executeRequests wResolve (analyzeQuery wSchema wSelected).2 wStore,
      fieldID ∈ recordKeys rec ∧ fieldREV ∈ recordKeys rec ∧
        ∀ req ∈ wSelected, req.name ∈ recordKeys rec) :=
  ⟨by decide,
   (query_selection_completeness wSchema wSelected wStore wResolve (by decide)).1⟩

/-- C1: for a one-hop relationship, `pre_resolve_batch` assigns to each
source resource `s` of the batch exactly the fetched right-side rows whose
right join field equals `s`'s left join field value; when `many` is false,
the first such row, or nothing when none matches. -/
theorem batch_one_hop_join_correctness (j : JHop) (extra : JRes → Bool)
    (batch : List JRes) (s : JRes) (hs : s ∈ batch) :
    preResolveBatchValue true [j] extra batch s =
      JEntity.batch ((hopQueried j extra batch).filter
        (fun t => decide (t.get j.rightField = s.get j.leftField))) ∧
    preResolveBatchValue false [j] extra batch s =
      JEntity.one (((hopQueried j extra batch).filter
        (fun t => decide (t.get j.rightField = s.get j.leftField))).head?) :=
  ⟨rfl, rfl⟩

theorem batch_one_hop_join_correctness_witness :
    wSrc ∈ [wSrc] ∧
    (preResolveBatchValue true [wJHop] (fun _ => true) [wSrc] wSrc =
      JEntity.batch ((hopQueried wJHop (fun _ => true) [wSrc]).filter
        (fun t => decide (t.get wJHop.rightField = wSrc.get wJHop.leftField))) ∧
     preResolveBatchValue false [wJHop] (fun _ => true) [wSrc] wSrc =
      JEntity.one (((hopQueried wJHop (fun _ => true) [wSrc]).filter
        (fun t => decide (t.get wJHop.rightField = wSrc.get wJHop.leftField))).head?)) ∧
    preResolveBatchValue true [wJHop] (fun _ => true) [wSrc] wSrc =
      JEntity.batch [⟨21, [("owner_id", 7)]⟩, ⟨23, [("owner_id", 7)]⟩] :=
  ⟨List.mem_cons_self wSrc [],
   batch_one_hop_join_correctness wJHop (fun _ => true) [wSrc] wSrc
     (List.mem_cons_self wSrc []),
   by decide⟩

/-- C9: batch relationship resolution over a join chain of k hops issues
exactly k Store query calls, whatever the source batch (one call per hop,
never one per batch element). -/
theorem batch_store_calls_eq_hops (joins : List JHop) (extra : JRes → Bool)
    (batch : List JRes) :
    batchStoreCalls joins extra batch = joins.length := by
  induction joins generalizing batch with
  | nil => rfl
  | cons j rest ih =>
      cases rest with
      | nil => rfl
      | cons j2 rs =>
          have h := ih (hopQueried j (fun _ => true) batch)
          simp only [batchStoreCalls, runBatchHops, List.length_cons] at h ⊢
          omega

/-- C7 (evaluation at the failing input): the side-loaded dumper of
src/pybiz/biz/dumper.py never skips an already-visited identity -
`_dump_recursive` recurses into every relationship value before the parent
is recorded and keeps no visited set - so on a two-node cyclic graph the
traversal exhausts any recursion depth without returning (the source call,
which has no depth bound, does not terminate).  The older
`SideLoadingDumpMethod.dump` of src/pybiz/biz/dump.py guards recursion
with a `related_id not in links` check, as the claim describes. -/
theorem sideloaded_dumper_cycle_divergence :
    ∀ fuel links, dumpRecursive cycleGraph fuel 0 links = none ∧
      dumpRecursive cycleGraph fuel 1 links = none := by
  intro fuel
  induction fuel with
  | zero => intro links; exact ⟨rfl, rfl⟩
  | succ fuel ih =>
      intro links
      refine ⟨?_, ?_⟩
      · have h1 := (ih links).2
        simp [dumpRecursive, cycleGraph, h1]
      · have h0 := (ih links).1
        simp [dumpRecursive, cycleGraph, h0]
